import Mathlib

/-! # Verification of the LeaderBoard scoring engine

Shallow embedding of `app/services/scoring_engine.py` (together with the
pieces of `app/models.py` and `app/api/leaderboard.py` that the verified
properties mention).  Python `Decimal` values are modelled as exact
rationals (`ℚ`); `Decimal.quantize(Decimal("0.0001"), rounding=ROUND_HALF_UP)`
is modelled by `quantize4`.  Database tables are modelled as lists of rows;
machine integers are unbounded (`ℕ` / `ℤ`), which is faithful because
Python integers are unbounded.  Timestamp columns and the free-form JSON
`details` payload never influence any verified property; `details` is kept
as an abstract `Option String` payload and timestamps are elided.
-/

namespace LeaderBoard

/-! ## Decimal arithmetic (`decimal.Decimal`, `ROUND_HALF_UP`) -/

/-- Floor of a rational, written explicitly on the numerator and denominator
so that it evaluates by kernel reduction.  `ratFloor_eq_floor` connects it
to `Int.floor`. -/
def ratFloor (x : ℚ) : ℤ := x.num / (x.den : ℤ)

/-- Round-half-up to an integer: ties are rounded away from zero, exactly as
Python's `decimal.ROUND_HALF_UP` does.  The sign test is phrased on the
numerator (equivalent to `0 ≤ x`, see `roundHalfUp_eq`) so that the
definition evaluates by kernel reduction. -/
def roundHalfUp (x : ℚ) : ℤ :=
  if 0 ≤ x.num then ratFloor (x + 1/2) else -(ratFloor (-x + 1/2))

/-- `Decimal.quantize(Decimal("0.0001"), rounding=ROUND_HALF_UP)`:
round to four fractional digits, ties away from zero. -/
def quantize4 (x : ℚ) : ℚ := (roundHalfUp (x * 10000) : ℚ) / 10000

/-! ## Data model (`app/models.py`), restricted to the columns the scoring
engine reads or writes -/

/-- `Exam` (table `exams`): weights are `Numeric(5,2)` columns (so every
stored weight is an integer number of hundredths), maxima are
`Numeric(10,2)`. -/
structure Exam where
  exam_id : ℕ
  weight_coding : ℚ
  weight_quiz : ℚ
  weight_assessment : ℚ
  max_score_coding : ℚ
  max_score_quiz : ℚ
  max_score_assessment : ℚ
deriving Repr, DecidableEq

/-- `ExamSession` (table `exam_sessions`). -/
structure ExamSession where
  session_id : ℕ
  exam_id : ℕ
  user_id : ℕ
  version : ℕ
deriving Repr, DecidableEq

/-- `ModuleScore` (table `module_scores`); `raw_score`, `max_score` are
`Numeric(10,2)` columns. -/
structure ModuleScore where
  session_id : ℕ
  module_type : String
  raw_score : ℚ
  max_score : ℚ
  time_spent_sec : ℤ
  details : Option String
  version : ℕ
deriving Repr, DecidableEq

/-- `LeaderboardSnapshot` (table `leaderboard_snapshot`). -/
structure LeaderboardSnapshot where
  exam_id : ℕ
  user_id : ℕ
  session_id : ℕ
  weighted_coding : ℚ
  weighted_quiz : ℚ
  weighted_assessment : ℚ
  total_score : ℚ
  total_time_sec : ℤ
  rank_position : ℕ
deriving Repr, DecidableEq

/-- `ScoreAuditLog` (table `score_audit_log`). -/
structure ScoreAuditLog where
  session_id : ℕ
  module_type : String
  old_score : Option ℚ
  new_score : ℚ
  changed_by : ℕ
  change_reason : String
deriving Repr, DecidableEq

/-- The database state touched by the engine. -/
structure DBState where
  exams : List Exam
  sessions : List ExamSession
  module_scores : List ModuleScore
  leaderboard : List LeaderboardSnapshot
  audit_log : List ScoreAuditLog
deriving Repr, DecidableEq

/-! ## Weighted-Score Calculator (`_calculate_weighted_score`) -/

/-- The result dict produced by `_calculate_weighted_score`. -/
structure WeightedResult where
  weighted_coding : ℚ
  weighted_quiz : ℚ
  weighted_assessment : ℚ
  total_score : ℚ
  total_time_sec : ℤ
deriving Repr, DecidableEq

/-- `weight_map` of `_calculate_weighted_score`. -/
def weightOf (exam : Exam) (m : String) : ℚ :=
  if m = "coding" then exam.weight_coding
  else if m = "quiz" then exam.weight_quiz
  else exam.weight_assessment

/-- `max_map` of `_calculate_weighted_score`. -/
def maxOf (exam : Exam) (m : String) : ℚ :=
  if m = "coding" then exam.max_score_coding
  else if m = "quiz" then exam.max_score_quiz
  else exam.max_score_assessment

/-- `scores.get(module)` where
`scores = \x7bms.module_type: ms for ms in session.module_scores\x7d`:
a Python dict comprehension keeps the last row per key. -/
def lookupModule (scores : List ModuleScore) (m : String) : Option ModuleScore :=
  (scores.filter (fun ms => ms.module_type == m)).getLast?

/-- One loop iteration of `_calculate_weighted_score`: the `weighted` value
for one module (`Decimal("0.0000")` when the module is absent or its
configured maximum is not positive). -/
def moduleWeighted (exam : Exam) (scores : List ModuleScore) (m : String) : ℚ :=
  match lookupModule scores m with
  | some ms =>
      if 0 < maxOf exam m then
        quantize4 (ms.raw_score / maxOf exam m * weightOf exam m)
      else 0
  | none => 0

/-- The `total_time += ms.time_spent_sec` contribution of one module:
counted only when the module row exists and its configured maximum is
positive (the same guard the code uses for the weighted value). -/
def moduleTime (exam : Exam) (scores : List ModuleScore) (m : String) : ℤ :=
  match lookupModule scores m with
  | some ms => if 0 < maxOf exam m then ms.time_spent_sec else 0
  | none => 0

/-- `_calculate_weighted_score(session, exam)`, as a function of the
session's module-score rows and the exam configuration. -/
def calculateWeightedScore (scores : List ModuleScore) (exam : Exam) : WeightedResult :=
  let wc := moduleWeighted exam scores "coding"
  let wq := moduleWeighted exam scores "quiz"
  let wa := moduleWeighted exam scores "assessment"
  { weighted_coding := wc
    weighted_quiz := wq
    weighted_assessment := wa
    total_score := quantize4 (wc + wq + wa)
    total_time_sec :=
      moduleTime exam scores "coding" + moduleTime exam scores "quiz" +
        moduleTime exam scores "assessment" }

/-! ## Rank Refresh Engine (`_refresh_ranks`)

The SQL statement computes, for every `leaderboard_snapshot` row of the
exam, `DENSE_RANK() OVER (ORDER BY total_score DESC, total_time_sec ASC)`
and stores it in `rank_position`.  `DENSE_RANK` of a row is one plus the
number of *distinct* ordering keys that sort strictly before the row's
key. -/

/-- The ordering key of a leaderboard row: `(total_score, total_time_sec)`. -/
def entryKey (e : LeaderboardSnapshot) : ℚ × ℤ := (e.total_score, e.total_time_sec)

/-- `p` sorts strictly before `q` under
`ORDER BY total_score DESC, total_time_sec ASC`. -/
def beats (p q : ℚ × ℤ) : Prop :=
  q.1 < p.1 ∨ (p.1 = q.1 ∧ p.2 < q.2)

instance (p q : ℚ × ℤ) : Decidable (beats p q) := by
  unfold beats; infer_instance

/-- The distinct ordering keys of the exam's leaderboard rows (the window
partition of the `DENSE_RANK` subquery, `WHERE exam_id = :exam_id`). -/
def examKeys (lb : List LeaderboardSnapshot) (eid : ℕ) : Finset (ℚ × ℤ) :=
  ((lb.filter (fun e => e.exam_id == eid)).map entryKey).toFinset

/-- `DENSE_RANK` of key `p` among the distinct keys `present`. -/
def denseRank (present : Finset (ℚ × ℤ)) (p : ℚ × ℤ) : ℕ :=
  1 + (present.filter (fun q => beats q p)).card

/-- The effect of the UPDATE on one row: rows of the exam get
`rank_position := DENSE_RANK` of their key among `present`, other rows
are untouched. -/
def applyRank (present : Finset (ℚ × ℤ)) (eid : ℕ) (e : LeaderboardSnapshot) :
    LeaderboardSnapshot :=
  if e.exam_id == eid then
    { e with rank_position := denseRank present (entryKey e) }
  else e

/-- `_refresh_ranks(exam_id)` applied to the `leaderboard_snapshot` table:
every row of the exam gets `rank_position := DENSE_RANK` of its key; rows
of other exams are untouched. -/
def refreshRanks (lb : List LeaderboardSnapshot) (eid : ℕ) : List LeaderboardSnapshot :=
  lb.map (applyRank (examKeys lb eid) eid)

/-- The `rowcount` returned by `_refresh_ranks` (number of rows of the
exam matched by the UPDATE). -/
def refreshRanksCount (lb : List LeaderboardSnapshot) (eid : ℕ) : ℕ :=
  (lb.filter (fun e => e.exam_id == eid)).length

/-! ## Score Submission Pipeline (`submit_module_score`, `_atomic_score_update`) -/

/-- The arguments of `submit_module_score`. -/
structure SubmitArgs where
  session_id : ℕ
  module_type : String
  raw_score : ℚ
  max_score : ℚ
  time_spent_sec : ℤ
  details : Option String
  changed_by : ℕ
deriving Repr, DecidableEq

/-- The error taxonomy of the pipeline: `invalidInput` is the `ValueError`
of `_validate_module_type`, `sessionNotFound` the `NoResultFound` of the
`scalar_one()` session lookup, `concurrencyExhausted` the `RuntimeError`
raised after `MAX_RETRIES` conflicting attempts, and `fatal` any other
lock-unrelated failure — in particular the `InvalidRequestError` that
`scalar_one()` raises on an existing session, because the select of
`ExamSession` carries a joined eager load of the `module_scores`
collection and the result is never passed through `Result.unique()`. -/
inductive SubmitError where
  | invalidInput : String → SubmitError
  | sessionNotFound : SubmitError
  | concurrencyExhausted : SubmitError
  | fatal : SubmitError
deriving Repr, DecidableEq

/-- What the storage layer does to one attempt of the retry loop:
`normal` lets the transaction run, `conflict` makes it raise
`OperationalError` (lock wait timeout / serialization failure), `fatal`
makes it raise a lock-unrelated error. -/
inductive AttemptOutcome where
  | normal : AttemptOutcome
  | conflict : AttemptOutcome
  | fatal : AttemptOutcome
deriving Repr, DecidableEq

/-- `MAX_RETRIES = 3` (scoring_engine.py line 40). -/
def MAX_RETRIES : ℕ := 3

def findSession (st : DBState) (sid : ℕ) : Option ExamSession :=
  st.sessions.find? (fun s => s.session_id == sid)

def findExam (st : DBState) (eid : ℕ) : Option Exam :=
  st.exams.find? (fun e => e.exam_id == eid)

/-- `_atomic_score_update`: step 1 executes
`select(ExamSession).where(...).with_for_update()` and consumes the result
with `scalar_one()`.  The `ExamSession` mapper eagerly joins the
`module_scores` collection (`lazy="joined"` in `app/models.py`), so the
statement's result contains joined eager loads against a collection and
rows may only be fetched after `Result.unique()` is applied; the code
never calls it.  `scalar_one()` therefore raises `NoResultFound` when no
session row exists (modelled `sessionNotFound`) and otherwise raises
`InvalidRequestError`, a lock-unrelated error (modelled `fatal`).  Steps
2-8 of the transaction body are unreachable, and in either case the
transaction rolls back without committing anything. -/
def atomicScoreUpdate (st : DBState) (a : SubmitArgs) :
    Except SubmitError (DBState × LeaderboardSnapshot) :=
  match findSession st a.session_id with
  | none => .error .sessionNotFound
  | some _ => .error .fatal

/-- The value produced by one call of `submit_module_score`: the number of
attempts that actually ran, the database state visible afterwards (the
original one when every attempt rolled back), and the outcome. -/
structure SubmitOutcome where
  attempts : ℕ
  state : DBState
  result : Except SubmitError LeaderboardSnapshot
deriving Repr

/-- The `for attempt in range(1, MAX_RETRIES + 1)` retry loop of
`submit_module_score`.  `fuel` counts the remaining loop iterations and
`attempt` is the loop variable; a `conflict` outcome rolls the attempt
back and retries unless `attempt == MAX_RETRIES`, a `fatal` outcome (any
exception that is not an `OperationalError`) propagates immediately.
After the loop Python would fall through and return `None`; that point is
unreachable because the last conflicting attempt raises. -/
def submitLoop (oracle : ℕ → AttemptOutcome) (st : DBState) (a : SubmitArgs) :
    ℕ → ℕ → SubmitOutcome
  | 0, _ => ⟨0, st, .error .concurrencyExhausted⟩
  | fuel + 1, attempt =>
    match oracle attempt with
    | .fatal => ⟨1, st, .error .fatal⟩
    | .conflict =>
      if attempt = MAX_RETRIES then ⟨1, st, .error .concurrencyExhausted⟩
      else
        let r := submitLoop oracle st a fuel (attempt + 1)
        ⟨r.attempts + 1, r.state, r.result⟩
    | .normal =>
      match atomicScoreUpdate st a with
      | .ok p => ⟨1, p.1, .ok p.2⟩
      | .error err => ⟨1, st, .error err⟩

/-- `_VALID_MODULES` of `_validate_module_type`. -/
def validModules : List String := ["coding", "quiz", "assessment"]

/-- `submit_module_score`: validate the module type, then run the retry
loop. -/
def submitModuleScore (oracle : ℕ → AttemptOutcome) (st : DBState)
    (a : SubmitArgs) : SubmitOutcome :=
  if a.module_type ∈ validModules then
    submitLoop oracle st a MAX_RETRIES 1
  else
    ⟨0, st, .error (.invalidInput a.module_type)⟩

/-- `recalculate_all_ranks(exam_id)` just delegates to `_refresh_ranks`. -/
def recalculateAllRanks (lb : List LeaderboardSnapshot) (eid : ℕ) :
    List LeaderboardSnapshot × ℕ :=
  (refreshRanks lb eid, refreshRanksCount lb eid)

/-! ## Cache keys (`_invalidate_leaderboard_cache` and
`app/api/leaderboard.py`) -/

/-- The key deleted by `_invalidate_leaderboard_cache(exam_id)`. -/
def invalidationKey (eid : ℕ) : String :=
  "leaderboard:exam:" ++ toString eid

/-- The key under which `get_leaderboard` caches one page. -/
def pageKey (eid page perPage : ℕ) : String :=
  "leaderboard:exam:" ++ toString eid ++ ":p" ++ toString page ++
    ":pp" ++ toString perPage

/-- The read-side cache, a key-value store. -/
def Cache := List (String × String)

/-- `cache.delete(key)`. -/
def cacheDelete (c : Cache) (k : String) : Cache :=
  List.filter (fun kv => kv.1 != k) c

/-- `cache.get(key)`. -/
def cacheGet (c : Cache) (k : String) : Option String :=
  (List.find? (fun kv => kv.1 == k) c).map (fun kv => kv.2)

/-! ## Concrete fixtures used by witnesses and counterexamples -/

/-- The exam of the spec's concrete scenario: weights 50/30/20, all module
maximums 100. -/
def examC2 : Exam :=
  { exam_id := 1, weight_coding := 50, weight_quiz := 30,
    weight_assessment := 20, max_score_coding := 100,
    max_score_quiz := 100, max_score_assessment := 100 }

/-- The submitted module scores of the spec's concrete scenario. -/
def scoresC2 : List ModuleScore :=
  [{ session_id := 1, module_type := "coding", raw_score := 80,
     max_score := 100, time_spent_sec := 1000, details := none, version := 1 },
   { session_id := 1, module_type := "quiz", raw_score := 90,
     max_score := 100, time_spent_sec := 500, details := none, version := 1 },
   { session_id := 1, module_type := "assessment", raw_score := 70,
     max_score := 100, time_spent_sec := 800, details := none, version := 1 }]

/-- A session with only `coding` submitted (raw=80, max=100, time 1000):
the missing-module scenario of the spec. -/
def scoresC4 : List ModuleScore :=
  [{ session_id := 1, module_type := "coding", raw_score := 80,
     max_score := 100, time_spent_sec := 1000, details := none, version := 1 }]

/-- Reference value used by claim C4 (stated from the spec's words, not
from the code): the sum of `time_spent_sec` over exactly the modules that
were actually submitted. -/
def submittedTime (scores : List ModuleScore) : ℤ :=
  (validModules.map (fun m =>
    match lookupModule scores m with
    | some ms => ms.time_spent_sec
    | none => 0)).sum

/-- A small leaderboard: in exam 1, users 1 and 2 are tied on
`(90, 100)`, user 3 has the same score but is slower, user 4 scores
lower; user 5 belongs to another exam. -/
def lbEx : List LeaderboardSnapshot :=
  [{ exam_id := 1, user_id := 1, session_id := 11, weighted_coding := 90,
     weighted_quiz := 0, weighted_assessment := 0, total_score := 90,
     total_time_sec := 100, rank_position := 0 },
   { exam_id := 1, user_id := 2, session_id := 12, weighted_coding := 90,
     weighted_quiz := 0, weighted_assessment := 0, total_score := 90,
     total_time_sec := 100, rank_position := 0 },
   { exam_id := 1, user_id := 3, session_id := 13, weighted_coding := 90,
     weighted_quiz := 0, weighted_assessment := 0, total_score := 90,
     total_time_sec := 200, rank_position := 0 },
   { exam_id := 1, user_id := 4, session_id := 14, weighted_coding := 80,
     weighted_quiz := 0, weighted_assessment := 0, total_score := 80,
     total_time_sec := 50, rank_position := 0 },
   { exam_id := 2, user_id := 5, session_id := 15, weighted_coding := 99,
     weighted_quiz := 0, weighted_assessment := 0, total_score := 99,
     total_time_sec := 10, rank_position := 7 }]

/-- A storage layer that never raises. -/
def oracleNormal : ℕ → AttemptOutcome := fun _ => .normal

/-- A storage layer whose every attempt hits a write-write conflict. -/
def oracleConflict : ℕ → AttemptOutcome := fun _ => .conflict

/-- A storage layer whose every attempt raises a lock-unrelated error. -/
def oracleFatal : ℕ → AttemptOutcome := fun _ => .fatal

/-- One exam, one open session, nothing submitted yet. -/
def stFresh : DBState :=
  { exams := [examC2]
    sessions := [{ session_id := 1, exam_id := 1, user_id := 1, version := 1 }]
    module_scores := []
    leaderboard := []
    audit_log := [] }

/-- A submission with a negative raw score (an input the spec's
preconditions forbid). -/
def argsNegative : SubmitArgs :=
  { session_id := 1, module_type := "coding", raw_score := -5,
    max_score := 100, time_spent_sec := 60, details := none, changed_by := 0 }

/-- The happy-path submission of the repository's own test suite
(`test_submit_score_success`): a first coding submission for session 1,
raw 80 / max 100, 1000 seconds. -/
def argsC8first : SubmitArgs :=
  { session_id := 1, module_type := "coding", raw_score := 80,
    max_score := 100, time_spent_sec := 1000, details := none, changed_by := 0 }

/-! # Theorems -/

/-! ## Decimal rounding lemmas -/

theorem ratFloor_eq_floor (x : ℚ) : ratFloor x = ⌊x⌋ := by
  rw [ratFloor, Rat.floor_def]

theorem roundHalfUp_eq (x : ℚ) :
    roundHalfUp x = if 0 ≤ x then ⌊x + 1/2⌋ else -⌊-x + 1/2⌋ := by
  rw [roundHalfUp, ratFloor_eq_floor, ratFloor_eq_floor]
  rcases le_or_lt 0 x with h | h
  · rw [if_pos h, if_pos (Rat.num_nonneg.mpr h)]
  · rw [if_neg (not_le.mpr h),
      if_neg (fun hn => absurd (Rat.num_nonneg.mp hn) (not_le.mpr h))]

theorem abs_floor_half_sub_le (y : ℚ) : |((⌊y + 1/2⌋ : ℤ) : ℚ) - y| ≤ 1/2 := by
  have h1 : ((⌊y + 1/2⌋ : ℤ) : ℚ) ≤ y + 1/2 := Int.floor_le _
  have h2 : y + 1/2 < ((⌊y + 1/2⌋ : ℤ) : ℚ) + 1 := Int.lt_floor_add_one _
  rw [abs_le]
  constructor <;> linarith

theorem abs_roundHalfUp_sub_le (x : ℚ) : |((roundHalfUp x : ℤ) : ℚ) - x| ≤ 1/2 := by
  rw [roundHalfUp_eq]
  rcases le_or_lt 0 x with h | h
  · rw [if_pos h]; exact abs_floor_half_sub_le x
  · rw [if_neg (not_le.mpr h)]
    have := abs_floor_half_sub_le (-x)
    calc |((-⌊-x + 1/2⌋ : ℤ) : ℚ) - x|
        = |((⌊-x + 1/2⌋ : ℤ) : ℚ) - -x| := by push_cast; rw [← abs_neg]; ring_nf
      _ ≤ 1/2 := this

theorem roundHalfUp_mono {x y : ℚ} (h : x ≤ y) : roundHalfUp x ≤ roundHalfUp y := by
  rw [roundHalfUp_eq, roundHalfUp_eq]
  rcases le_or_lt 0 x with hx | hx
  · rw [if_pos hx, if_pos (le_trans hx h)]
    exact Int.floor_le_floor (by linarith)
  · rw [if_neg (not_le.mpr hx)]
    rcases le_or_lt 0 y with hy | hy
    · rw [if_pos hy]
      have h1 : (0 : ℤ) ≤ ⌊-x + 1/2⌋ := Int.floor_nonneg.mpr (by linarith)
      have h2 : (0 : ℤ) ≤ ⌊y + 1/2⌋ := Int.floor_nonneg.mpr (by linarith)
      omega
    · rw [if_neg (not_le.mpr hy)]
      have : ⌊-y + 1/2⌋ ≤ ⌊-x + 1/2⌋ := Int.floor_le_floor (by linarith)
      omega

theorem roundHalfUp_intCast (k : ℤ) : roundHalfUp (k : ℚ) = k := by
  rw [roundHalfUp_eq]
  have h1 : ⌊(k : ℚ) + 1/2⌋ = k := by
    rw [add_comm, Int.floor_add_int]
    norm_num
  have h2 : ⌊-(k : ℚ) + 1/2⌋ = -k := by
    rw [add_comm, ← Int.cast_neg, Int.floor_add_int]
    norm_num
  split <;> omega

theorem abs_quantize4_sub_le (x : ℚ) : |quantize4 x - x| ≤ 1/20000 := by
  have h := abs_roundHalfUp_sub_le (x * 10000)
  rw [quantize4]
  have heq : ((roundHalfUp (x * 10000) : ℤ) : ℚ) / 10000 - x
      = (((roundHalfUp (x * 10000) : ℤ) : ℚ) - x * 10000) / 10000 := by ring
  rw [heq, abs_div, abs_of_pos (by norm_num : (0:ℚ) < 10000)]
  rw [div_le_div_iff₀ (by norm_num) (by norm_num)]
  nlinarith [h]

theorem quantize4_mono {x y : ℚ} (h : x ≤ y) : quantize4 x ≤ quantize4 y := by
  rw [quantize4, quantize4]
  have : roundHalfUp (x * 10000) ≤ roundHalfUp (y * 10000) :=
    roundHalfUp_mono (by linarith)
  have hc : ((roundHalfUp (x * 10000) : ℤ) : ℚ) ≤ ((roundHalfUp (y * 10000) : ℤ) : ℚ) := by
    exact_mod_cast this
  linarith

theorem quantize4_fix (k : ℤ) : quantize4 ((k : ℚ) / 10000) = (k : ℚ) / 10000 := by
  rw [quantize4, div_mul_cancel₀ _ (by norm_num : (10000 : ℚ) ≠ 0), roundHalfUp_intCast]

theorem quantize4_zero : quantize4 0 = 0 := by
  have := quantize4_fix 0
  simpa using this

theorem quantize4_nonneg {x : ℚ} (h : 0 ≤ x) : 0 ≤ quantize4 x := by
  have := quantize4_mono h
  rwa [quantize4_zero] at this

/-- Every quantized value is an integer number of ten-thousandths. -/
theorem quantize4_den (x : ℚ) : ∃ k : ℤ, quantize4 x = (k : ℚ) / 10000 :=
  ⟨roundHalfUp (x * 10000), rfl⟩

/-! ## Evaluation lemmas for the weight/maximum maps -/

theorem weightOf_coding (e : Exam) : weightOf e "coding" = e.weight_coding := rfl

theorem weightOf_quiz (e : Exam) : weightOf e "quiz" = e.weight_quiz := rfl

theorem weightOf_assessment (e : Exam) : weightOf e "assessment" = e.weight_assessment := rfl

theorem maxOf_coding (e : Exam) : maxOf e "coding" = e.max_score_coding := rfl

theorem maxOf_quiz (e : Exam) : maxOf e "quiz" = e.max_score_quiz := rfl

theorem maxOf_assessment (e : Exam) : maxOf e "assessment" = e.max_score_assessment := rfl

/-! ## C2: the concrete weighted-score scenario -/

set_option maxHeartbeats 800000 in
/-- **C2**: for an exam with weights coding=50, quiz=30, assessment=20 and
all module maximums 100, the Weighted-Score Calculator applied to a
session with coding raw=80 time=1000, quiz raw=90 time=500, assessment
raw=70 time=800 returns exactly `weighted_coding = 40.0000`,
`weighted_quiz = 27.0000`, `weighted_assessment = 14.0000`,
`total_score = 81.0000` and `total_time_sec = 2300`. -/
theorem c2_concrete_scenario :
    calculateWeightedScore scoresC2 examC2
    = { weighted_coding := 40, weighted_quiz := 27, weighted_assessment := 14,
        total_score := 81, total_time_sec := 2300 } := by
  have hc : lookupModule scoresC2 "coding" = some
      { session_id := 1, module_type := "coding", raw_score := 80,
        max_score := 100, time_spent_sec := 1000, details := none, version := 1 } := by
    decide
  have hq : lookupModule scoresC2 "quiz" = some
      { session_id := 1, module_type := "quiz", raw_score := 90,
        max_score := 100, time_spent_sec := 500, details := none, version := 1 } := by
    decide
  have ha : lookupModule scoresC2 "assessment" = some
      { session_id := 1, module_type := "assessment", raw_score := 70,
        max_score := 100, time_spent_sec := 800, details := none, version := 1 } := by
    decide
  simp only [calculateWeightedScore, moduleWeighted, moduleTime, hc, hq, ha,
    weightOf_coding, weightOf_quiz, weightOf_assessment,
    maxOf_coding, maxOf_quiz, maxOf_assessment, examC2]
  norm_num [quantize4, roundHalfUp, ratFloor]

/-! ## C4: missing-module policy -/

/-- When a module's configured maximum is positive, its time contribution
is its `time_spent_sec` if submitted and `0` otherwise. -/
theorem moduleTime_of_pos (exam : Exam) (scores : List ModuleScore) (m : String)
    (h : 0 < maxOf exam m) :
    moduleTime exam scores m
      = match lookupModule scores m with
        | some ms => ms.time_spent_sec
        | none => 0 := by
  rw [moduleTime]
  cases lookupModule scores m with
  | none => rfl
  | some ms => simp [h]

/-- **C4 (counterexample)**: the claim quantifies over *every* exam
configuration, but a submitted module whose configured maximum is not
positive (storable: `max_score_coding` is a plain `Numeric(10,2)` column
with no positivity constraint) contributes no time, so `total_time_sec`
is not the sum of the submitted modules' times.  Concretely: one `coding`
row with `time_spent_sec = 100` on an exam with `max_score_coding = 0`
gives `total_time_sec = 0`, not `100`. -/
theorem c4_counterexample :
    ¬ ((calculateWeightedScore
          [{ session_id := 1, module_type := "coding", raw_score := 0,
             max_score := 100, time_spent_sec := 100, details := none, version := 1 }]
          { exam_id := 1, weight_coding := 50, weight_quiz := 30,
            weight_assessment := 20, max_score_coding := 0,
            max_score_quiz := 100, max_score_assessment := 100 }).total_time_sec
        = submittedTime
            [{ session_id := 1, module_type := "coding", raw_score := 0,
               max_score := 100, time_spent_sec := 100, details := none, version := 1 }]) := by
  decide

/-- **C4 (amended)**: a module type with no submitted row contributes
`weighted = 0` and nothing to `total_time_sec`; and *provided every
configured module maximum is positive*, `total_time_sec` equals the sum
of `time_spent_sec` over exactly the submitted modules.  In particular a
session with only coding submitted (raw=80, max=100, weight=50) yields
`weighted_coding = 40.0000`, `weighted_quiz = 0`,
`weighted_assessment = 0`, `total_score = 40.0000` and `total_time_sec`
equal to coding's time alone. -/
theorem c4_missing_module_policy :
    (∀ (exam : Exam) (scores : List ModuleScore) (m : String),
      lookupModule scores m = none →
      moduleWeighted exam scores m = 0 ∧ moduleTime exam scores m = 0)
    ∧ (∀ (exam : Exam) (scores : List ModuleScore),
        0 < exam.max_score_coding → 0 < exam.max_score_quiz →
        0 < exam.max_score_assessment →
        (calculateWeightedScore scores exam).total_time_sec = submittedTime scores)
    ∧ calculateWeightedScore scoresC4 examC2
      = { weighted_coding := 40, weighted_quiz := 0, weighted_assessment := 0,
          total_score := 40, total_time_sec := 1000 } := by
  refine ⟨?_, ?_, ?_⟩
  · intro exam scores m h
    rw [moduleWeighted, moduleTime, h]
    exact ⟨rfl, rfl⟩
  · intro exam scores hc hq ha
    rw [calculateWeightedScore]
    simp only []
    rw [moduleTime_of_pos exam scores "coding" (by rwa [maxOf_coding]),
      moduleTime_of_pos exam scores "quiz" (by rwa [maxOf_quiz]),
      moduleTime_of_pos exam scores "assessment" (by rwa [maxOf_assessment]),
      submittedTime, validModules]
    simp [List.map, List.sum]
    omega
  · have hc : lookupModule scoresC4 "coding" = some
        { session_id := 1, module_type := "coding", raw_score := 80,
          max_score := 100, time_spent_sec := 1000, details := none, version := 1 } := by
      decide
    have hq : lookupModule scoresC4 "quiz" = none := by decide
    have ha : lookupModule scoresC4 "assessment" = none := by decide
    simp only [calculateWeightedScore, moduleWeighted, moduleTime, hc, hq, ha,
      weightOf_coding, maxOf_coding, examC2]
    norm_num [quantize4, roundHalfUp, ratFloor]

/-- Witness for `c4_missing_module_policy`: its universally quantified
conjuncts applied at the concrete scenario of C2. -/
theorem c4_missing_module_policy_witness :
    moduleWeighted examC2 scoresC4 "quiz" = 0 ∧
    (calculateWeightedScore scoresC4 examC2).total_time_sec = submittedTime scoresC4 := by
  refine ⟨(c4_missing_module_policy.1 examC2 scoresC4 "quiz" (by decide)).1, ?_⟩
  exact c4_missing_module_policy.2.1 examC2 scoresC4 (by decide) (by decide) (by decide)

/-! ## C3: the weighted-sum invariant -/

/-- A value bounded by a whole number of hundredths stays bounded by it
after quantizing to ten-thousandths (hundredths are exactly representable
at that precision). -/
theorem quantize4_le_of_le_hundredth {x w : ℚ} (hx : x ≤ w) (k : ℤ)
    (hw : w = (k : ℚ) / 100) : quantize4 x ≤ w := by
  have h100 : w = ((100 * k : ℤ) : ℚ) / 10000 := by rw [hw]; push_cast; ring
  calc quantize4 x ≤ quantize4 w := quantize4_mono hx
    _ = w := by rw [h100]; exact quantize4_fix _

set_option maxHeartbeats 800000 in
/-- **C3**: for every session whose exam weights sum to 100 (each weight
nonnegative and — as the `Numeric(5,2)` column type guarantees — a whole
number of hundredths; each configured module maximum positive) and in
which all three modules have been submitted with `0 ≤ raw ≤ max`, the
calculator's `total_score` equals `Σ (raw_m / max_m) * weight_m` within
the declared 4-fractional-digit round-half-up precision (three roundings
of at most half an ulp each, so within `3/20000`), and lies in `[0, 100]`. -/
theorem c3_weighted_sum_invariant
    (exam : Exam) (scores : List ModuleScore) (msC msQ msA : ModuleScore)
    (hlC : lookupModule scores "coding" = some msC)
    (hlQ : lookupModule scores "quiz" = some msQ)
    (hlA : lookupModule scores "assessment" = some msA)
    (hwsum : exam.weight_coding + exam.weight_quiz + exam.weight_assessment = 100)
    (hwC : 0 ≤ exam.weight_coding) (hwQ : 0 ≤ exam.weight_quiz)
    (hwA : 0 ≤ exam.weight_assessment)
    (hdC : ∃ k : ℤ, exam.weight_coding = (k : ℚ) / 100)
    (hdQ : ∃ k : ℤ, exam.weight_quiz = (k : ℚ) / 100)
    (hdA : ∃ k : ℤ, exam.weight_assessment = (k : ℚ) / 100)
    (hmC : 0 < exam.max_score_coding) (hmQ : 0 < exam.max_score_quiz)
    (hmA : 0 < exam.max_score_assessment)
    (hrC0 : 0 ≤ msC.raw_score) (hrC1 : msC.raw_score ≤ exam.max_score_coding)
    (hrQ0 : 0 ≤ msQ.raw_score) (hrQ1 : msQ.raw_score ≤ exam.max_score_quiz)
    (hrA0 : 0 ≤ msA.raw_score) (hrA1 : msA.raw_score ≤ exam.max_score_assessment) :
    |(calculateWeightedScore scores exam).total_score
        - (msC.raw_score / exam.max_score_coding * exam.weight_coding
            + msQ.raw_score / exam.max_score_quiz * exam.weight_quiz
            + msA.raw_score / exam.max_score_assessment * exam.weight_assessment)|
      ≤ 3 / 20000
    ∧ 0 ≤ (calculateWeightedScore scores exam).total_score
    ∧ (calculateWeightedScore scores exam).total_score ≤ 100 := by
  set xC := msC.raw_score / exam.max_score_coding * exam.weight_coding with hxC
  set xQ := msQ.raw_score / exam.max_score_quiz * exam.weight_quiz with hxQ
  set xA := msA.raw_score / exam.max_score_assessment * exam.weight_assessment with hxA
  have hwc : moduleWeighted exam scores "coding" = quantize4 xC := by
    simp only [moduleWeighted, hlC, maxOf_coding, weightOf_coding, if_pos hmC, hxC]
  have hwq : moduleWeighted exam scores "quiz" = quantize4 xQ := by
    simp only [moduleWeighted, hlQ, maxOf_quiz, weightOf_quiz, if_pos hmQ, hxQ]
  have hwa : moduleWeighted exam scores "assessment" = quantize4 xA := by
    simp only [moduleWeighted, hlA, maxOf_assessment, weightOf_assessment, if_pos hmA, hxA]
  have htot : (calculateWeightedScore scores exam).total_score
      = quantize4 (quantize4 xC + quantize4 xQ + quantize4 xA) := by
    simp only [calculateWeightedScore, hwc, hwq, hwa]
  have hfix : quantize4 (quantize4 xC + quantize4 xQ + quantize4 xA)
      = quantize4 xC + quantize4 xQ + quantize4 xA := by
    obtain ⟨k1, e1⟩ := quantize4_den xC
    obtain ⟨k2, e2⟩ := quantize4_den xQ
    obtain ⟨k3, e3⟩ := quantize4_den xA
    rw [e1, e2, e3]
    have hsum3 : (k1 : ℚ) / 10000 + (k2 : ℚ) / 10000 + (k3 : ℚ) / 10000
        = ((k1 + k2 + k3 : ℤ) : ℚ) / 10000 := by push_cast; ring
    rw [hsum3]; exact quantize4_fix _
  rw [htot, hfix]
  have hx0C : 0 ≤ xC := mul_nonneg (div_nonneg hrC0 hmC.le) hwC
  have hx0Q : 0 ≤ xQ := mul_nonneg (div_nonneg hrQ0 hmQ.le) hwQ
  have hx0A : 0 ≤ xA := mul_nonneg (div_nonneg hrA0 hmA.le) hwA
  have hx1C : xC ≤ exam.weight_coding := by
    have h1 : msC.raw_score / exam.max_score_coding ≤ 1 := (div_le_one hmC).mpr hrC1
    calc xC ≤ 1 * exam.weight_coding := mul_le_mul_of_nonneg_right h1 hwC
      _ = exam.weight_coding := one_mul _
  have hx1Q : xQ ≤ exam.weight_quiz := by
    have h1 : msQ.raw_score / exam.max_score_quiz ≤ 1 := (div_le_one hmQ).mpr hrQ1
    calc xQ ≤ 1 * exam.weight_quiz := mul_le_mul_of_nonneg_right h1 hwQ
      _ = exam.weight_quiz := one_mul _
  have hx1A : xA ≤ exam.weight_assessment := by
    have h1 : msA.raw_score / exam.max_score_assessment ≤ 1 := (div_le_one hmA).mpr hrA1
    calc xA ≤ 1 * exam.weight_assessment := mul_le_mul_of_nonneg_right h1 hwA
      _ = exam.weight_assessment := one_mul _
  obtain ⟨kC, hkC⟩ := hdC
  obtain ⟨kQ, hkQ⟩ := hdQ
  obtain ⟨kA, hkA⟩ := hdA
  have hqC := abs_le.mp (abs_quantize4_sub_le xC)
  have hqQ := abs_le.mp (abs_quantize4_sub_le xQ)
  have hqA := abs_le.mp (abs_quantize4_sub_le xA)
  refine ⟨?_, ?_, ?_⟩
  · rw [abs_le]
    constructor <;> [linarith [hqC.1, hqQ.1, hqA.1]; linarith [hqC.2, hqQ.2, hqA.2]]
  · have h1 := quantize4_nonneg hx0C
    have h2 := quantize4_nonneg hx0Q
    have h3 := quantize4_nonneg hx0A
    linarith
  · have h1 := quantize4_le_of_le_hundredth hx1C kC hkC
    have h2 := quantize4_le_of_le_hundredth hx1Q kQ hkQ
    have h3 := quantize4_le_of_le_hundredth hx1A kA hkA
    linarith

set_option maxHeartbeats 800000 in
/-- Witness for `c3_weighted_sum_invariant`: the concrete C2 scenario
satisfies every hypothesis, and the invariant holds there. -/
theorem c3_weighted_sum_invariant_witness :
    |(calculateWeightedScore scoresC2 examC2).total_score
        - ((80 : ℚ) / 100 * 50 + (90 : ℚ) / 100 * 30 + (70 : ℚ) / 100 * 20)|
      ≤ 3 / 20000
    ∧ 0 ≤ (calculateWeightedScore scoresC2 examC2).total_score
    ∧ (calculateWeightedScore scoresC2 examC2).total_score ≤ 100 := by
  have h := c3_weighted_sum_invariant examC2 scoresC2
    { session_id := 1, module_type := "coding", raw_score := 80,
      max_score := 100, time_spent_sec := 1000, details := none, version := 1 }
    { session_id := 1, module_type := "quiz", raw_score := 90,
      max_score := 100, time_spent_sec := 500, details := none, version := 1 }
    { session_id := 1, module_type := "assessment", raw_score := 70,
      max_score := 100, time_spent_sec := 800, details := none, version := 1 }
    (by decide) (by decide) (by decide)
    (by norm_num [examC2]) (by norm_num [examC2]) (by norm_num [examC2])
    (by norm_num [examC2])
    ⟨5000, by norm_num [examC2]⟩ ⟨3000, by norm_num [examC2]⟩
    ⟨2000, by norm_num [examC2]⟩
    (by norm_num [examC2]) (by norm_num [examC2]) (by norm_num [examC2])
    (by norm_num) (by norm_num [examC2]) (by norm_num) (by norm_num [examC2])
    (by norm_num) (by norm_num [examC2])
  simpa [examC2] using h

/-! ## The ordering `(total_score DESC, total_time_sec ASC)` -/

theorem beats_irrefl (p : ℚ × ℤ) : ¬ beats p p := by
  rw [beats]
  rintro (h | ⟨-, h⟩) <;> exact lt_irrefl _ h

theorem beats_trans {p q r : ℚ × ℤ} (h1 : beats p q) (h2 : beats q r) : beats p r := by
  rw [beats] at h1 h2 ⊢
  rcases h1 with h1 | ⟨e1, t1⟩ <;> rcases h2 with h2 | ⟨e2, t2⟩
  · exact Or.inl (lt_trans h2 h1)
  · exact Or.inl (e2 ▸ h1)
  · exact Or.inl (e1 ▸ h2)
  · exact Or.inr ⟨e1.trans e2, lt_trans t1 t2⟩

theorem beats_total {p q : ℚ × ℤ} (h : p ≠ q) : beats p q ∨ beats q p := by
  rw [beats, beats]
  rcases lt_trichotomy p.1 q.1 with hs | hs | hs
  · exact Or.inr (Or.inl hs)
  · rcases lt_trichotomy p.2 q.2 with ht | ht | ht
    · exact Or.inl (Or.inr ⟨hs, ht⟩)
    · exact absurd (Prod.ext_iff.mpr ⟨hs, ht⟩) h
    · exact Or.inr (Or.inr ⟨hs.symm, ht⟩)
  · exact Or.inl (Or.inl hs)

/-! ## Dense-rank lemmas -/

theorem denseRank_lt {P : Finset (ℚ × ℤ)} {p q : ℚ × ℤ} (hp : p ∈ P)
    (h : beats p q) : denseRank P p < denseRank P q := by
  have hsub : insert p (P.filter (fun r => beats r p)) ⊆ P.filter (fun r => beats r q) := by
    intro r hr
    rcases Finset.mem_insert.mp hr with rfl | hr
    · exact Finset.mem_filter.mpr ⟨hp, h⟩
    · obtain ⟨hrP, hrb⟩ := Finset.mem_filter.mp hr
      exact Finset.mem_filter.mpr ⟨hrP, beats_trans hrb h⟩
  have hnot : p ∉ P.filter (fun r => beats r p) := fun hmem =>
    beats_irrefl p (Finset.mem_filter.mp hmem).2
  have hcard := Finset.card_le_card hsub
  rw [Finset.card_insert_of_not_mem hnot] at hcard
  rw [denseRank, denseRank]
  omega

theorem denseRank_succ {P : Finset (ℚ × ℤ)} {p q : ℚ × ℤ} (hp : p ∈ P)
    (h : beats p q) (hmid : ∀ r ∈ P, ¬(beats p r ∧ beats r q)) :
    denseRank P q = denseRank P p + 1 := by
  have hfil : P.filter (fun r => beats r q) = insert p (P.filter (fun r => beats r p)) := by
    ext r
    simp only [Finset.mem_filter, Finset.mem_insert]
    constructor
    · rintro ⟨hrP, hrq⟩
      by_cases hr : r = p
      · exact Or.inl hr
      · rcases beats_total hr with hb | hb
        · exact Or.inr ⟨hrP, hb⟩
        · exact absurd ⟨hb, hrq⟩ (hmid r hrP)
    · rintro (rfl | ⟨hrP, hrp⟩)
      · exact ⟨hp, h⟩
      · exact ⟨hrP, beats_trans hrp h⟩
  have hnot : p ∉ P.filter (fun r => beats r p) := fun hmem =>
    beats_irrefl p (Finset.mem_filter.mp hmem).2
  rw [denseRank, denseRank, hfil, Finset.card_insert_of_not_mem hnot]
  omega

theorem denseRank_injOn (P : Finset (ℚ × ℤ)) : Set.InjOn (denseRank P) ↑P := by
  intro p hp q hq hpq
  by_contra hne
  rcases beats_total hne with h | h
  · exact absurd hpq (ne_of_lt (denseRank_lt (Finset.mem_coe.mp hp) h))
  · exact absurd hpq.symm (ne_of_lt (denseRank_lt (Finset.mem_coe.mp hq) h))

/-! ## Rank-refresh lemmas -/

theorem entryKey_applyRank (P : Finset (ℚ × ℤ)) (eid : ℕ) (e : LeaderboardSnapshot) :
    entryKey (applyRank P eid e) = entryKey e := by
  rw [applyRank]; split <;> rfl

theorem examid_applyRank (P : Finset (ℚ × ℤ)) (eid : ℕ) (e : LeaderboardSnapshot) :
    (applyRank P eid e).exam_id = e.exam_id := by
  rw [applyRank]; split <;> rfl

theorem applyRank_of_exam (P : Finset (ℚ × ℤ)) (eid : ℕ) (e : LeaderboardSnapshot)
    (h : e.exam_id = eid) :
    applyRank P eid e = { e with rank_position := denseRank P (entryKey e) } := by
  rw [applyRank, if_pos (by simp [h])]

theorem applyRank_of_ne (P : Finset (ℚ × ℤ)) (eid : ℕ) (e : LeaderboardSnapshot)
    (h : ¬ e.exam_id = eid) : applyRank P eid e = e := by
  rw [applyRank, if_neg (by simp [h])]

theorem toFinset_map_eq_image {α β : Type _} [DecidableEq α] [DecidableEq β]
    (f : α → β) (l : List α) : (l.map f).toFinset = l.toFinset.image f := by
  ext b; simp

theorem filter_map_applyRank (lb : List LeaderboardSnapshot)
    (P : Finset (ℚ × ℤ)) (eid : ℕ) :
    (lb.map (applyRank P eid)).filter (fun e => e.exam_id == eid)
      = (lb.filter (fun e => e.exam_id == eid)).map (applyRank P eid) := by
  rw [List.filter_map]
  congr 1
  apply List.filter_congr
  intro a _
  simp [Function.comp, examid_applyRank]

theorem refreshRanks_keys (lb : List LeaderboardSnapshot) (eid : ℕ) :
    ((refreshRanks lb eid).filter (fun e => e.exam_id == eid)).map entryKey
      = (lb.filter (fun e => e.exam_id == eid)).map entryKey := by
  rw [refreshRanks, filter_map_applyRank, List.map_map]
  exact List.map_congr_left (fun a _ => entryKey_applyRank _ _ _)

theorem examKeys_refreshRanks (lb : List LeaderboardSnapshot) (eid : ℕ) :
    examKeys (refreshRanks lb eid) eid = examKeys lb eid := by
  rw [examKeys, examKeys, refreshRanks_keys]

theorem rank_of_mem_refreshRanks {lb : List LeaderboardSnapshot} {eid : ℕ}
    {e : LeaderboardSnapshot} (he : e ∈ refreshRanks lb eid)
    (hex : e.exam_id = eid) :
    e.rank_position = denseRank (examKeys lb eid) (entryKey e)
      ∧ entryKey e ∈ examKeys lb eid := by
  obtain ⟨a, ha, rfl⟩ := List.mem_map.mp he
  by_cases hb : a.exam_id = eid
  · rw [applyRank_of_exam _ _ _ hb]
    refine ⟨rfl, ?_⟩
    show entryKey a ∈ examKeys lb eid
    rw [examKeys]
    exact List.mem_toFinset.mpr
      (List.mem_map_of_mem entryKey (List.mem_filter.mpr ⟨ha, by simp [hb]⟩))
  · exact absurd ((examid_applyRank _ _ _).symm.trans hex) hb

theorem refreshRanks_ranks (lb : List LeaderboardSnapshot) (eid : ℕ) :
    ((refreshRanks lb eid).filter (fun e => e.exam_id == eid)).map
        (fun e => e.rank_position)
      = ((lb.filter (fun e => e.exam_id == eid)).map entryKey).map
          (denseRank (examKeys lb eid)) := by
  rw [refreshRanks, filter_map_applyRank, List.map_map, List.map_map]
  apply List.map_congr_left
  intro a ha
  have hb : a.exam_id = eid := by
    have h2 := (List.mem_filter.mp ha).2
    simpa using h2
  simp [Function.comp, applyRank_of_exam _ _ _ hb]

/-! ## C1: dense ranking after a rank refresh -/

/-- **C1**: after `refreshRanks(exam_id)` runs, the `rank_position` of
every entry of that exam is the dense rank of its
`(total_score, total_time_sec)` key under `total_score DESC,
total_time_sec ASC`: (a) entries with equal keys share a rank;
(b) the number of distinct `rank_position` values equals the number of
distinct keys; (c) the next distinct key in that order receives the
previous rank plus one; (d) among entries with equal `total_score`, the
entry with the smaller `total_time_sec` has the smaller-or-equal
`rank_position`. -/
theorem c1_dense_rank (lb : List LeaderboardSnapshot) (eid : ℕ) :
    (∀ e1, e1 ∈ refreshRanks lb eid → ∀ e2, e2 ∈ refreshRanks lb eid →
      e1.exam_id = eid → e2.exam_id = eid → entryKey e1 = entryKey e2 →
      e1.rank_position = e2.rank_position)
    ∧ (((refreshRanks lb eid).filter (fun e => e.exam_id == eid)).map
          (fun e => e.rank_position)).toFinset.card
        = (((refreshRanks lb eid).filter (fun e => e.exam_id == eid)).map
            entryKey).toFinset.card
    ∧ (∀ e1, e1 ∈ refreshRanks lb eid → ∀ e2, e2 ∈ refreshRanks lb eid →
        e1.exam_id = eid → e2.exam_id = eid →
        beats (entryKey e1) (entryKey e2) →
        (∀ e3, e3 ∈ refreshRanks lb eid → e3.exam_id = eid →
          ¬(beats (entryKey e1) (entryKey e3) ∧ beats (entryKey e3) (entryKey e2))) →
        e2.rank_position = e1.rank_position + 1)
    ∧ (∀ e1, e1 ∈ refreshRanks lb eid → ∀ e2, e2 ∈ refreshRanks lb eid →
        e1.exam_id = eid → e2.exam_id = eid →
        e1.total_score = e2.total_score →
        e1.total_time_sec ≤ e2.total_time_sec →
        e1.rank_position ≤ e2.rank_position) := by
  refine ⟨?_, ?_, ?_, ?_⟩
  · intro e1 h1 e2 h2 hx1 hx2 hk
    rw [(rank_of_mem_refreshRanks h1 hx1).1, (rank_of_mem_refreshRanks h2 hx2).1, hk]
  · rw [refreshRanks_ranks, refreshRanks_keys, toFinset_map_eq_image,
      Finset.card_image_of_injOn]
    exact denseRank_injOn _
  · intro e1 h1 e2 h2 hx1 hx2 hb hmid
    obtain ⟨hr1, hm1⟩ := rank_of_mem_refreshRanks h1 hx1
    obtain ⟨hr2, _⟩ := rank_of_mem_refreshRanks h2 hx2
    rw [hr1, hr2]
    apply denseRank_succ hm1 hb
    intro r hr
    rw [examKeys] at hr
    obtain ⟨a, ha, rfl⟩ := List.mem_map.mp (List.mem_toFinset.mp hr)
    obtain ⟨haL, haB⟩ := List.mem_filter.mp ha
    have hax : a.exam_id = eid := by simpa using haB
    have hmem3 : applyRank (examKeys lb eid) eid a ∈ refreshRanks lb eid :=
      List.mem_map_of_mem _ haL
    have hx3 : (applyRank (examKeys lb eid) eid a).exam_id = eid :=
      (examid_applyRank _ _ _).trans hax
    have := hmid _ hmem3 hx3
    rwa [entryKey_applyRank] at this
  · intro e1 h1 e2 h2 hx1 hx2 hs ht
    obtain ⟨hr1, hm1⟩ := rank_of_mem_refreshRanks h1 hx1
    obtain ⟨hr2, _⟩ := rank_of_mem_refreshRanks h2 hx2
    by_cases hk : entryKey e1 = entryKey e2
    · rw [hr1, hr2, hk]
    · have htlt : e1.total_time_sec < e2.total_time_sec := by
        rcases lt_or_eq_of_le ht with h | h
        · exact h
        · exact absurd (Prod.ext_iff.mpr ⟨hs, h⟩) hk
      have hbeats : beats (entryKey e1) (entryKey e2) := Or.inr ⟨hs, htlt⟩
      rw [hr1, hr2]
      exact le_of_lt (denseRank_lt hm1 hbeats)

set_option maxHeartbeats 1000000 in
/-- Witness for `c1_dense_rank`: on the concrete leaderboard `lbEx`, the
two entries tied on `(90, 100)` both end up with rank 1 (conjunct (a)
applied at concrete entries). -/
theorem c1_dense_rank_witness :
    ({ exam_id := 1, user_id := 1, session_id := 11, weighted_coding := 90,
       weighted_quiz := 0, weighted_assessment := 0, total_score := 90,
       total_time_sec := 100, rank_position := 1 } : LeaderboardSnapshot)
      ∈ refreshRanks lbEx 1
    ∧ ({ exam_id := 1, user_id := 2, session_id := 12, weighted_coding := 90,
         weighted_quiz := 0, weighted_assessment := 0, total_score := 90,
         total_time_sec := 100, rank_position := 1 } : LeaderboardSnapshot)
        ∈ refreshRanks lbEx 1
    ∧ ({ exam_id := 1, user_id := 1, session_id := 11, weighted_coding := 90,
         weighted_quiz := 0, weighted_assessment := 0, total_score := 90,
         total_time_sec := 100, rank_position := 1 } : LeaderboardSnapshot).rank_position
        = ({ exam_id := 1, user_id := 2, session_id := 12, weighted_coding := 90,
             weighted_quiz := 0, weighted_assessment := 0, total_score := 90,
             total_time_sec := 100, rank_position := 1 } : LeaderboardSnapshot).rank_position := by
  refine ⟨by decide, by decide, ?_⟩
  exact (c1_dense_rank lbEx 1).1 _ (by decide) _ (by decide) rfl rfl rfl

/-! ## C9: idempotence of the rank refresh -/

theorem applyRank_applyRank (P : Finset (ℚ × ℤ)) (eid : ℕ) (e : LeaderboardSnapshot) :
    applyRank P eid (applyRank P eid e) = applyRank P eid e := by
  by_cases hb : e.exam_id = eid
  · rw [applyRank_of_exam P eid e hb]
    have h2 : ({ e with rank_position := denseRank P (entryKey e) }
        : LeaderboardSnapshot).exam_id = eid := hb
    rw [applyRank_of_exam P eid _ h2]
    rfl
  · rw [applyRank_of_ne _ _ _ hb, applyRank_of_ne _ _ _ hb]

/-- **C9**: `refreshRanks` is idempotent — running it a second time
immediately after a first run returns exactly the list the first run
produced (every field of every entry unchanged), so redundant calls are
safe. -/
theorem c9_refresh_idempotent (lb : List LeaderboardSnapshot) (eid : ℕ) :
    refreshRanks (refreshRanks lb eid) eid = refreshRanks lb eid := by
  conv_lhs => rw [refreshRanks, examKeys_refreshRanks, refreshRanks, List.map_map]
  conv_rhs => rw [refreshRanks]
  apply List.map_congr_left
  intro a _
  exact applyRank_applyRank _ _ a

/-! ## Retry-loop lemmas -/

/-- One unfolding step of the retry loop. -/
theorem submitLoop_succ (oracle : ℕ → AttemptOutcome) (st : DBState)
    (a : SubmitArgs) (fuel attempt : ℕ) :
    submitLoop oracle st a (fuel + 1) attempt =
      match oracle attempt with
      | .fatal => ⟨1, st, .error .fatal⟩
      | .conflict =>
        if attempt = MAX_RETRIES then ⟨1, st, .error .concurrencyExhausted⟩
        else
          let r := submitLoop oracle st a fuel (attempt + 1)
          ⟨r.attempts + 1, r.state, r.result⟩
      | .normal =>
        match atomicScoreUpdate st a with
        | .ok p => ⟨1, p.1, .ok p.2⟩
        | .error err => ⟨1, st, .error err⟩ := rfl

theorem submitLoop_attempts_le (oracle : ℕ → AttemptOutcome) (st : DBState)
    (a : SubmitArgs) :
    ∀ fuel attempt : ℕ, (submitLoop oracle st a fuel attempt).attempts ≤ fuel := by
  intro fuel
  induction fuel with
  | zero => intro attempt; exact le_refl 0
  | succ f ih =>
    intro attempt
    rw [submitLoop_succ]
    cases oracle attempt with
    | fatal => exact Nat.le_add_left 1 f
    | conflict =>
      by_cases hA : attempt = MAX_RETRIES
      · simp only [if_pos hA]
        exact Nat.le_add_left 1 f
      · simp only [if_neg hA]
        exact Nat.succ_le_succ (ih (attempt + 1))
    | normal =>
      cases atomicScoreUpdate st a with
      | ok p => exact Nat.le_add_left 1 f
      | error err => exact Nat.le_add_left 1 f

/-! ## C6: bounded retry on write-write conflicts -/

/-- **C6**: (i) a submission makes at most `MAX_RETRIES = 3` attempts;
(ii) when every attempt hits a write-write conflict, exactly 3 attempts
run and a `ConcurrencyExhausted` error surfaces with no state change;
(iii) a lock-unrelated (`fatal`) failure at attempt `k` — after `k - 1`
conflicting attempts — propagates immediately: `k` attempts total, no
further retry, no state change. -/
theorem c6_retry_policy :
    (∀ (oracle : ℕ → AttemptOutcome) (st : DBState) (a : SubmitArgs),
      (submitModuleScore oracle st a).attempts ≤ MAX_RETRIES)
    ∧ (∀ (oracle : ℕ → AttemptOutcome) (st : DBState) (a : SubmitArgs),
        a.module_type ∈ validModules →
        oracle 1 = .conflict → oracle 2 = .conflict → oracle 3 = .conflict →
        submitModuleScore oracle st a = ⟨3, st, .error .concurrencyExhausted⟩)
    ∧ (∀ (oracle : ℕ → AttemptOutcome) (st : DBState) (a : SubmitArgs) (k : ℕ),
        a.module_type ∈ validModules →
        1 ≤ k → k ≤ MAX_RETRIES →
        (∀ j, 1 ≤ j → j < k → oracle j = .conflict) →
        oracle k = .fatal →
        submitModuleScore oracle st a = ⟨k, st, .error .fatal⟩) := by
  refine ⟨?_, ?_, ?_⟩
  · intro oracle st a
    rw [submitModuleScore]
    split
    · exact submitLoop_attempts_le oracle st a MAX_RETRIES 1
    · exact Nat.zero_le _
  · intro oracle st a hmem h1 h2 h3
    rw [submitModuleScore, if_pos hmem]
    have e1 : submitLoop oracle st a 1 (1 + 1 + 1)
        = ⟨1, st, .error .concurrencyExhausted⟩ := by
      show submitLoop oracle st a (0 + 1) (1 + 1 + 1) = _
      rw [submitLoop_succ, show oracle (1 + 1 + 1) = AttemptOutcome.conflict from h3]
      rfl
    have e2 : submitLoop oracle st a 2 (1 + 1)
        = ⟨2, st, .error .concurrencyExhausted⟩ := by
      show submitLoop oracle st a (1 + 1) (1 + 1) = _
      rw [submitLoop_succ, show oracle (1 + 1) = AttemptOutcome.conflict from h2,
        if_neg (show ¬((1 + 1 : ℕ) = MAX_RETRIES) by decide), e1]
    show submitLoop oracle st a (2 + 1) 1 = _
    rw [submitLoop_succ, h1, if_neg (show ¬((1 : ℕ) = MAX_RETRIES) by decide), e2]
  · intro oracle st a k hmem hk1 hk3 hconf hk
    rw [submitModuleScore, if_pos hmem]
    rw [MAX_RETRIES] at hk3
    interval_cases k
    · show submitLoop oracle st a (2 + 1) 1 = _
      rw [submitLoop_succ, hk]
    · have e1 : submitLoop oracle st a 2 (1 + 1) = ⟨1, st, .error .fatal⟩ := by
        show submitLoop oracle st a (1 + 1) (1 + 1) = _
        rw [submitLoop_succ, show oracle (1 + 1) = AttemptOutcome.fatal from hk]
      show submitLoop oracle st a (2 + 1) 1 = _
      rw [submitLoop_succ, hconf 1 (by omega) (by omega),
        if_neg (show ¬((1 : ℕ) = MAX_RETRIES) by decide), e1]
    · have e1 : submitLoop oracle st a 1 (1 + 1 + 1) = ⟨1, st, .error .fatal⟩ := by
        show submitLoop oracle st a (0 + 1) (1 + 1 + 1) = _
        rw [submitLoop_succ, show oracle (1 + 1 + 1) = AttemptOutcome.fatal from hk]
      have e2 : submitLoop oracle st a 2 (1 + 1) = ⟨2, st, .error .fatal⟩ := by
        show submitLoop oracle st a (1 + 1) (1 + 1) = _
        rw [submitLoop_succ,
          show oracle (1 + 1) = AttemptOutcome.conflict from hconf 2 (by omega) (by omega),
          if_neg (show ¬((1 + 1 : ℕ) = MAX_RETRIES) by decide), e1]
      show submitLoop oracle st a (2 + 1) 1 = _
      rw [submitLoop_succ, hconf 1 (by omega) (by omega),
        if_neg (show ¬((1 : ℕ) = MAX_RETRIES) by decide), e2]

/-- Witness for `c6_retry_policy`: with every attempt conflicting, the
concrete fresh state surfaces `ConcurrencyExhausted` after exactly 3
attempts with the state untouched; with a fatal first attempt, the error
propagates after exactly 1 attempt. -/
theorem c6_retry_policy_witness :
    submitModuleScore oracleConflict stFresh argsNegative
      = ⟨3, stFresh, .error .concurrencyExhausted⟩
    ∧ submitModuleScore oracleFatal stFresh argsNegative
      = ⟨1, stFresh, .error .fatal⟩ := by
  constructor
  · exact c6_retry_policy.2.1 oracleConflict stFresh argsNegative (by decide) rfl rfl rfl
  · exact c6_retry_policy.2.2 oracleFatal stFresh argsNegative 1 (by decide)
      (by omega) (by decide) (fun j hj1 hj2 => absurd hj1 (by omega)) rfl

/-! ## C7: unknown session -/

/-- **C7**: submitting for a `session_id` with no `ExamSession` row fails
with `SessionNotFound` on the first attempt — no retry, and the state is
not mutated. -/
theorem c7_session_not_found (oracle : ℕ → AttemptOutcome) (st : DBState)
    (a : SubmitArgs) (hmem : a.module_type ∈ validModules)
    (h1 : oracle 1 = .normal) (hs : findSession st a.session_id = none) :
    submitModuleScore oracle st a = ⟨1, st, .error .sessionNotFound⟩ := by
  have hA : atomicScoreUpdate st a = .error .sessionNotFound := by
    rw [atomicScoreUpdate, hs]
  rw [submitModuleScore, if_pos hmem,
    show MAX_RETRIES = 2 + 1 from rfl, submitLoop_succ, h1, hA]

/-- Witness for `c7_session_not_found`: session 99 does not exist in the
fresh state. -/
theorem c7_session_not_found_witness :
    submitModuleScore oracleNormal stFresh
      { session_id := 99, module_type := "coding", raw_score := 50,
        max_score := 100, time_spent_sec := 10, details := none, changed_by := 0 }
      = ⟨1, stFresh, .error .sessionNotFound⟩ :=
  c7_session_not_found oracleNormal stFresh _ (by decide) rfl (by decide)

/-! ## C5: input validation at the pipeline boundary -/

/-- **C5 (counterexample)**: a call that violates only the score
preconditions is not rejected with an `InvalidInput` error.  Submitting
`raw_score = -5` (valid module type, existing session) passes
`_validate_module_type`, and the attempt that then runs fails at the
step-1 session load with a lock-unrelated error: the outcome is `Fatal`
after one attempt, not the immediate `InvalidInput` the claim requires,
and the negative score is never examined by the pipeline. -/
theorem c5_counterexample :
    submitModuleScore oracleNormal stFresh argsNegative
      = ⟨1, stFresh, .error .fatal⟩
    ∧ (⟨1, stFresh, .error .fatal⟩ : SubmitOutcome)
      ≠ ⟨0, stFresh, .error (.invalidInput argsNegative.module_type)⟩ := by
  constructor
  · rfl
  · intro h
    exact absurd (congrArg SubmitOutcome.attempts h) (by decide)

/-- **C5 (amended)**: the pipeline re-checks only the module type: a call
with `module_type` outside `{coding, quiz, assessment}` fails immediately
with an `InvalidInput` error (the `ValueError` of
`_validate_module_type`), with no attempt run and no state mutated.
Score-bound violations (`raw_score < 0`, `max_score ≤ 0`,
`raw_score > max_score`) are rejected by the request schema before the
pipeline boundary and are not re-checked inside the pipeline. -/
theorem c5_invalid_module_rejected (oracle : ℕ → AttemptOutcome)
    (st : DBState) (a : SubmitArgs) (h : a.module_type ∉ validModules) :
    submitModuleScore oracle st a = ⟨0, st, .error (.invalidInput a.module_type)⟩ := by
  rw [submitModuleScore, if_neg h]

/-- Witness for `c5_invalid_module_rejected`: the module type
`invalid_module` is rejected with no attempt and no state change. -/
theorem c5_invalid_module_rejected_witness :
    submitModuleScore oracleNormal stFresh
      { session_id := 1, module_type := "invalid_module", raw_score := 85,
        max_score := 100, time_spent_sec := 2400, details := none, changed_by := 0 }
      = ⟨0, stFresh, .error (.invalidInput "invalid_module")⟩ :=
  c5_invalid_module_rejected oracleNormal stFresh _ (by decide)

/-! ## C10: cache-key disjointness

The decimal representation of a natural number contains no colon, so the
invalidation key (2 colons) can never equal a page key (4 colons). -/

theorem digitChar_ne_colon (n : ℕ) : Nat.digitChar n ≠ ':' := by
  rcases Nat.lt_or_ge n 16 with h | h
  · interval_cases n <;> decide
  · unfold Nat.digitChar
    rw [if_neg (by omega : ¬n = 0), if_neg (by omega : ¬n = 1), if_neg (by omega : ¬n = 2),
      if_neg (by omega : ¬n = 3), if_neg (by omega : ¬n = 4), if_neg (by omega : ¬n = 5),
      if_neg (by omega : ¬n = 6), if_neg (by omega : ¬n = 7), if_neg (by omega : ¬n = 8),
      if_neg (by omega : ¬n = 9), if_neg (by omega : ¬n = 10), if_neg (by omega : ¬n = 11),
      if_neg (by omega : ¬n = 12), if_neg (by omega : ¬n = 13), if_neg (by omega : ¬n = 14),
      if_neg (by omega : ¬n = 15)]
    decide

theorem toDigitsCore_no_colon (b : ℕ) (fuel : ℕ) :
    ∀ (n : ℕ) (acc : List Char), ':' ∉ acc → ':' ∉ Nat.toDigitsCore b fuel n acc := by
  induction fuel with
  | zero => intro n acc hacc; simpa [Nat.toDigitsCore] using hacc
  | succ f ih =>
    intro n acc hacc
    rw [Nat.toDigitsCore]
    have hcons : ':' ∉ Nat.digitChar (n % b) :: acc := by
      intro hmem
      rcases List.mem_cons.mp hmem with h | h
      · exact digitChar_ne_colon _ h.symm
      · exact hacc h
    split
    · exact hcons
    · exact ih _ _ hcons

theorem natRepr_no_colon (n : ℕ) : ':' ∉ (Nat.repr n).data := by
  have h : (Nat.repr n).data = Nat.toDigits 10 n := rfl
  rw [h, Nat.toDigits]
  exact toDigitsCore_no_colon 10 (n + 1) n [] (by simp)

theorem count_colon_append (s t : String) :
    (s ++ t).data.count ':' = s.data.count ':' + t.data.count ':' := by
  rw [String.data_append, List.count_append]

theorem toString_nat_colons (n : ℕ) : (toString n).data.count ':' = 0 :=
  List.count_eq_zero.mpr (natRepr_no_colon n)

theorem invalidationKey_colons (e : ℕ) : (invalidationKey e).data.count ':' = 2 := by
  rw [invalidationKey, count_colon_append, toString_nat_colons]
  have h1 : ("leaderboard:exam:" : String).data.count ':' = 2 := by decide
  omega

theorem pageKey_colons (e p pp : ℕ) : (pageKey e p pp).data.count ':' = 4 := by
  simp only [pageKey, count_colon_append, toString_nat_colons]
  decide

theorem cacheGet_delete_ne (c : Cache) (k k2 : String) (h : k2 ≠ k) :
    cacheGet (cacheDelete c k) k2 = cacheGet c k2 := by
  induction c with
  | nil => rfl
  | cons kv t ih =>
    by_cases h1 : kv.1 = k
    · have hpk : ¬ ((fun kv : String × String => kv.1 != k) kv) = true := by
        simp [h1]
      have hk2 : ¬ ((fun kv : String × String => kv.1 == k2) kv) = true := by
        simp only [beq_iff_eq, h1]
        exact fun hh => h hh.symm
      have hdel : cacheDelete (kv :: t) k = cacheDelete t k := by
        show List.filter (fun kv => kv.1 != k) (kv :: t)
          = List.filter (fun kv => kv.1 != k) t
        rw [@List.filter_cons_of_neg (String × String) (fun kv => kv.1 != k) kv t hpk]
      have hget : cacheGet (kv :: t) k2 = cacheGet t k2 := by
        show (List.find? (fun kv => kv.1 == k2) (kv :: t)).map (fun kv => kv.2)
          = (List.find? (fun kv => kv.1 == k2) t).map (fun kv => kv.2)
        rw [@List.find?_cons_of_neg (String × String) (fun kv => kv.1 == k2) kv t hk2]
      rw [hdel, hget]
      exact ih
    · have hpk : ((fun kv : String × String => kv.1 != k) kv) = true := by
        simp [h1]
      have hdel : cacheDelete (kv :: t) k = kv :: cacheDelete t k := by
        show List.filter (fun kv => kv.1 != k) (kv :: t)
          = kv :: List.filter (fun kv => kv.1 != k) t
        rw [@List.filter_cons_of_pos (String × String) (fun kv => kv.1 != k) kv t hpk]
      rw [hdel]
      by_cases h2 : kv.1 = k2
      · have hk2 : ((fun kv : String × String => kv.1 == k2) kv) = true := by
          simp [h2]
        have e1 : cacheGet (kv :: cacheDelete t k) k2 = some kv.2 := by
          show (List.find? (fun kv => kv.1 == k2) (kv :: cacheDelete t k)).map
              (fun kv => kv.2) = _
          rw [@List.find?_cons_of_pos (String × String) (fun kv => kv.1 == k2) kv
            (cacheDelete t k) hk2]
          rfl
        have e2 : cacheGet (kv :: t) k2 = some kv.2 := by
          show (List.find? (fun kv => kv.1 == k2) (kv :: t)).map (fun kv => kv.2) = _
          rw [@List.find?_cons_of_pos (String × String) (fun kv => kv.1 == k2) kv t hk2]
          rfl
        rw [e1, e2]
      · have hk2 : ¬ ((fun kv : String × String => kv.1 == k2) kv) = true := by
          simp [h2]
        have e1 : cacheGet (kv :: cacheDelete t k) k2 = cacheGet (cacheDelete t k) k2 := by
          show (List.find? (fun kv => kv.1 == k2) (kv :: cacheDelete t k)).map
              (fun kv => kv.2) = _
          rw [@List.find?_cons_of_neg (String × String) (fun kv => kv.1 == k2) kv
            (cacheDelete t k) hk2]
          rfl
        have e2 : cacheGet (kv :: t) k2 = cacheGet t k2 := by
          show (List.find? (fun kv => kv.1 == k2) (kv :: t)).map (fun kv => kv.2) = _
          rw [@List.find?_cons_of_neg (String × String) (fun kv => kv.1 == k2) kv t hk2]
          rfl
        rw [e1, e2]
        exact ih

/-- **C10**: the key deleted by the core's invalidation signal,
`leaderboard:exam:{exam_id}`, never equals any page key
`leaderboard:exam:{exam_id}:p{page}:pp{per_page}` under which
`get_leaderboard` caches pages (for any exam ids, page, per_page);
consequently deleting the invalidation key never removes a cached
leaderboard page. -/
theorem c10_cache_keys_disjoint :
    (∀ e1 e2 page pp : ℕ, invalidationKey e1 ≠ pageKey e2 page pp)
    ∧ (∀ (c : Cache) (e1 e2 page pp : ℕ),
        cacheGet (cacheDelete c (invalidationKey e1)) (pageKey e2 page pp)
          = cacheGet c (pageKey e2 page pp)) := by
  have hne : ∀ e1 e2 page pp : ℕ, invalidationKey e1 ≠ pageKey e2 page pp := by
    intro e1 e2 page pp h
    have hc : (invalidationKey e1).data.count ':' = (pageKey e2 page pp).data.count ':' := by
      rw [h]
    rw [invalidationKey_colons, pageKey_colons] at hc
    exact absurd hc (by decide)
  refine ⟨hne, ?_⟩
  intro c e1 e2 page pp
  exact cacheGet_delete_ne c (invalidationKey e1) (pageKey e2 page pp)
    (fun hh => hne e1 e2 page pp hh.symm)

/-- Witness for `c10_cache_keys_disjoint`: invalidating exam 7 does not
evict exam 7's cached first page. -/
theorem c10_cache_keys_disjoint_witness :
    invalidationKey 7 ≠ pageKey 7 1 50
    ∧ cacheGet (cacheDelete [(pageKey 7 1 50, "cached-page")] (invalidationKey 7))
        (pageKey 7 1 50)
      = cacheGet [(pageKey 7 1 50, "cached-page")] (pageKey 7 1 50) :=
  ⟨c10_cache_keys_disjoint.1 7 7 1 50,
   c10_cache_keys_disjoint.2 [(pageKey 7 1 50, "cached-page")] 7 7 1 50⟩

/-! ## C8: resubmission with an unchanged raw score

The claim speaks of successful submissions, but the pipeline cannot
complete one: every attempt on an existing session dies at step 1, where
`scalar_one()` raises `InvalidRequestError` because the session select's
joined eager load of `module_scores` is never uniqued.  The repository's
own test `test_submit_score_success` expects exactly this submission to
return HTTP 200 with `total_score > 0`; the code contradicts it. -/

/-- **C8**: the happy-path submission of the repository's own test suite
(session 1, coding, raw 80 / max 100) fails with a lock-unrelated `Fatal`
error on its first attempt and leaves the state untouched, and an
identical resubmission afterwards fails the same way: no `ModuleScore`
row is ever created (so none reaches version 2), no audit entry is
appended, and no leaderboard total exists to be left unchanged —
contradicting the claim and the repository's `test_submit_score_success`. -/
theorem c8_code_bug :
    submitModuleScore oracleNormal stFresh argsC8first
      = ⟨1, stFresh, .error .fatal⟩
    ∧ submitModuleScore oracleNormal
        (submitModuleScore oracleNormal stFresh argsC8first).state argsC8first
      = ⟨1, stFresh, .error .fatal⟩
    ∧ (submitModuleScore oracleNormal stFresh argsC8first).state.module_scores = []
    ∧ (submitModuleScore oracleNormal stFresh argsC8first).state.audit_log = [] := by
  refine ⟨rfl, rfl, rfl, rfl⟩

end LeaderBoard
